import Mathlib

/-!
Verification development for the `prober` package of big-blackbox-exporter
(`src/prober/jsonrpc.go`).

The Go source is shallowly embedded: pure helpers (`stringsToSlice`,
`resultToFloat64WithDecimals`) become Lean functions; `ProbeJSONRPC` becomes a
pure function from a parameter map and a mock RPC endpoint to a record of its
observable effects (boolean outcome or panic, registered gauge vectors, gauge
Set operations, RPC calls issued over the wire).

Conventions of the embedding:
* Go `string` is Lean `String`; all character-level processing is written with
  structural recursion over `List Char` so that concrete runs reduce inside the
  kernel (`decide`).
* `math/big` integers are Lean `Int` (arbitrary precision, as in Go).
* float64 gauge values are recorded as the exact rational the code computes
  before the final float64 narrowing (`FVal.fin q`), or as an infinity.  The
  narrowing is a deterministic function of that rational, and every concrete
  value appearing in a theorem below is a small integer for which the float64
  pipeline in the Go code is exact, so equalities and inequalities transfer.
* Go panics are modelled explicitly: `big.Float.Quo` panics with `ErrNaN`
  when both operands are zero, which is reachable in
  `resultToFloat64WithDecimals` (see `scaleInt`).
-/

deriving instance DecidableEq for Except

namespace Prober

/-! ## Character and string utilities (structural replacements for Go `strings`) -/

/-- Split a character list at every occurrence of `sep`
(Go `strings.Split` for a one-character separator, on a non-empty input). -/
def charsSplit (sep : Char) : List Char → List Char → List (List Char)
  | [], cur => [cur.reverse]
  | c :: rest, cur =>
    if c = sep then cur.reverse :: charsSplit sep rest []
    else charsSplit sep rest (c :: cur)

/-- Go `strings.Split(s, ",")` for non-empty `s`, as `String`s. -/
def goSplitComma (s : String) : List String :=
  (charsSplit ',' s.data []).map String.mk

/-- ASCII whitespace trimmed by Go `strings.TrimSpace` (the inputs in this
repository are ASCII; exotic Unicode spaces do not occur). -/
def isGoSpace (c : Char) : Bool :=
  c = ' ' || c = '\t' || c = '\n' || c = '\x0b' || c = '\x0c' || c = '\r'

/-- Go `strings.TrimSpace`. -/
def goTrim (s : String) : String :=
  String.mk (((s.data.dropWhile isGoSpace).reverse.dropWhile isGoSpace).reverse)

/-- Does the character list `l` begin with `pat`? (Go `strings.HasPrefix`.) -/
def charsLead : List Char → List Char → Bool
  | [], _ => true
  | _ :: _, [] => false
  | a :: pa, b :: pb => a = b && charsLead pa pb

/-- Go target normalization in `ProbeJSONRPC`: a schemeless target gets an
`http://` scheme prepended (jsonrpc.go lines 243-245). -/
def normalizeTarget (t : String) : String :=
  if charsLead "http://".data t.data || charsLead "https://".data t.data then t
  else "http://" ++ t

/-! ## strconv models -/

/-- Decimal digit value, `none` for a non-digit. -/
def decDigitVal (c : Char) : Option Nat :=
  if 48 ≤ c.toNat ∧ c.toNat ≤ 57 then some (c.toNat - 48) else none

/-- Hexadecimal digit value, `none` for a non-digit. -/
def hexDigitVal (c : Char) : Option Nat :=
  if 48 ≤ c.toNat ∧ c.toNat ≤ 57 then some (c.toNat - 48)
  else if 97 ≤ c.toNat ∧ c.toNat ≤ 102 then some (c.toNat - 87)
  else if 65 ≤ c.toNat ∧ c.toNat ≤ 70 then some (c.toNat - 55)
  else none

/-- Value of an all-decimal-digit character list; `none` if any character is
not a digit (Go `strconv.ParseUint` body for base 10, no underscores since the
base is given explicitly). -/
def digitsValAux : List Char → Nat → Option Nat
  | [], acc => some acc
  | c :: rest, acc =>
    match decDigitVal c with
    | some d => digitsValAux rest (10 * acc + d)
    | none => none

/-- Sign handling shared by the `strconv.ParseInt` models: returns
(negative?, digit characters). -/
def splitSign : List Char → Bool × List Char
  | '-' :: rest => (true, rest)
  | '+' :: rest => (false, rest)
  | l => (false, l)

/-- Go `strconv.ParseInt(s, 10, 64)` when the error is checked: `some v` when
the whole string is an optional sign followed by at least one decimal digit and
the value fits in int64, `none` otherwise (syntax or range error). -/
def parseInt64 (s : String) : Option Int :=
  let (neg, digs) := splitSign s.data
  if digs = [] then none
  else
    match digitsValAux digs 0 with
    | none => none
    | some v =>
      let i : Int := if neg then -(v : Int) else (v : Int)
      if i < -(2 ^ 63) ∨ (2 ^ 63 - 1) < i then none else some i

/-- Go `strconv.ParseInt(s, 10, 64)` when the error is ignored
(`decimalsInt, _ := strconv.ParseInt(...)`): a syntax error yields 0 and a
range error yields the clamped maximum-magnitude int64 of the same sign, which
is exactly the value Go returns alongside the error. -/
def parseInt64Clamped (s : String) : Int :=
  let (neg, digs) := splitSign s.data
  if digs = [] then 0
  else
    match digitsValAux digs 0 with
    | none => 0
    | some v =>
      if neg then
        if (2 ^ 63 : Int) < (v : Int) then -(2 ^ 63) else -(v : Int)
      else
        if (2 ^ 63 - 1 : Int) < (v : Int) then 2 ^ 63 - 1 else (v : Int)

/-- Go `strconv.ParseBool`: accepts exactly
1, t, T, TRUE, true, True, 0, f, F, FALSE, false, False. -/
def parseBool (s : String) : Option Bool :=
  match s with
  | "1" | "t" | "T" | "TRUE" | "true" | "True" => some true
  | "0" | "f" | "F" | "FALSE" | "false" | "False" => some false
  | _ => none

/-! ## stringsToSlice (jsonrpc.go lines 40-72) -/

/-- A heterogeneous positional JSON-RPC argument as produced by
`stringsToSlice` (Go `interface\x7b\x7d` holding an int64, bool or string). -/
inductive GoVal where
  | int (n : Int)
  | bool (b : Bool)
  | str (s : String)
deriving DecidableEq

/-- `stringsToSlice` (jsonrpc.go lines 40-72): empty input yields the empty
slice; otherwise split on commas, trim each part and classify it as int64,
then bool, then string. -/
def stringsToSlice (s : String) : List GoVal :=
  if s = "" then []
  else
    (goSplitComma s).map fun part =>
      let p := goTrim part
      match parseInt64 p with
      | some n => GoVal.int n
      | none =>
        match parseBool p with
        | some b => GoVal.bool b
        | none => GoVal.str p

/-! ## Decimal normalizer (jsonrpc.go lines 74-85) -/

/-- Longest-prefix digit scan of `math/big`'s `Int.SetString`: the Go code
ignores `SetString`'s failure return, so the receiver keeps the value of the
longest valid digit prefix (0 when no digit was consumed). -/
def scanDigitsAux (dv : Char → Option Nat) (base : Nat) : List Char → Nat → Nat
  | [], acc => acc
  | c :: rest, acc =>
    match dv c with
    | some d => scanDigitsAux dv base rest (base * acc + d)
    | none => acc

/-- `big.Int.SetString` as used with its error ignored: optional sign, then
the longest valid digit prefix in the given base. -/
def bigScanChars (dv : Char → Option Nat) (base : Nat) (l : List Char) : Int :=
  match splitSign l with
  | (true, rest) => -((scanDigitsAux dv base rest 0 : Nat) : Int)
  | (false, rest) => ((scanDigitsAux dv base rest 0 : Nat) : Int)

/-- Does the string begin with the two characters `0x`
(Go `strings.HasPrefix(result, "0x")`)? -/
def hasHexMark (s : String) : Bool :=
  charsLead "0x".data s.data

/-- The big integer parsed by `resultToFloat64WithDecimals`
(jsonrpc.go lines 76-81): base 16 after stripping a `0x` prefix
(`strings.TrimPrefix` drops the two marker characters), base 10 otherwise. -/
def resultBigInt (s : String) : Int :=
  if hasHexMark s then bigScanChars hexDigitVal 16 (s.data.drop 2)
  else bigScanChars decDigitVal 10 s.data

/-- A float64 gauge value: a finite value `fin n d` records the exact
quotient `n / 10 ^ d` the code forms before the final float64 narrowing (kept
as the unreduced integer pair so that concrete probe runs evaluate inside the
kernel), or an infinity produced by a division by a `math.Pow10` underflow.
`FVal.val` interprets the finite case as the rational it denotes.  No theorem
below depends on a finite value outside the exactly representable float64
range. -/
inductive FVal where
  | fin (n : Int) (d : Int)
  | posInf
  | negInf
deriving DecidableEq

/-- Exact value of ten to an integer power, as a rational. -/
def pow10Q (d : Int) : ℚ :=
  if 0 ≤ d then ((10 ^ d.toNat : Nat) : ℚ) else (((10 ^ (-d).toNat : Nat) : ℚ))⁻¹

/-- The rational a finite gauge value denotes (`none` for an infinity). -/
def FVal.val : FVal → Option ℚ
  | .fin n d => some ((n : ℚ) / pow10Q d)
  | _ => none

/-- The `big.Float` division of jsonrpc.go line 83:
`Quo(SetInt(n), NewFloat(math.Pow10(d)))` followed by `Float64()`.
Go `math.Pow10` returns `+Inf` for `d > 308` (so the quotient is 0) and `0`
for `d < -323`; in the latter case `big.Float.Quo` of a zero numerator by the
zero divisor panics with `ErrNaN` (the `.error` case), while a non-zero
numerator divided by zero yields an infinity. -/
def scaleInt (n : Int) (d : Int) : Except String FVal :=
  if 308 < d then .ok (.fin 0 0)
  else if d < -323 then
    if n = 0 then .error "ErrNaN: big.Float Quo of zero by zero"
    else .ok (if 0 < n then FVal.posInf else FVal.negInf)
  else .ok (.fin n d)

/-- `resultToFloat64WithDecimals` (jsonrpc.go lines 74-85). -/
def resultToFloat64WithDecimals (result : String) (decimals : Int) : Except String FVal :=
  scaleInt (resultBigInt result) decimals

/-! ## Decoded JSON values -/

/-- A decoded JSON value, as produced by unmarshalling a raw JSON-RPC result. -/
inductive Json where
  | jnull
  | jbool (b : Bool)
  | jnum (n : Int)
  | jstr (s : String)
  | jarr (elems : List Json)
  | jobj (fields : List (String × Json))

/-- Is the value a JSON string? -/
def Json.isStr : Json → Bool
  | .jstr _ => true
  | _ => false

/-- Is the value JSON null? -/
def Json.isNull : Json → Bool
  | .jnull => true
  | _ => false

/-- Field lookup in a decoded JSON object (objects decode to Go maps; the
inputs in every theorem below have pairwise distinct keys). -/
def lookupField : List (String × Json) → String → Option Json
  | [], _ => none
  | (k, v) :: rest, key => if k = key then some v else lookupField rest key

/-! ## Positional wire parameters and `parseJSONRPCParams` -/

/-- One positional JSON-RPC parameter as built by `parseJSONRPCParams`: a
structured call object (field-name/value pairs) or a literal string. -/
inductive JParam where
  | pobj (fields : List (String × String))
  | plit (s : String)
deriving DecidableEq

/-- Split a character list at the first occurrence of `sep`, `none` when `sep`
does not occur. -/
def splitAtFirst (sep : Char) : List Char → Option (List Char × List Char)
  | [] => none
  | c :: rest =>
    if c = sep then some ([], rest)
    else
      match splitAtFirst sep rest with
      | none => none
      | some (a, b) => some (c :: a, b)

/-- One `key:value` token of the call object: a token without a colon is a
parse error; an empty value omits the pair. -/
def parseField (tok : List Char) : Except String (Option (String × String)) :=
  match splitAtFirst ':' tok with
  | none => .error "object key has no matching structure"
  | some (k, v) => if v = [] then .ok none else .ok (some (String.mk k, String.mk v))

/-- All `key:value` tokens of the call object, empty values omitted. -/
def parseFields : List (List Char) → Except String (List (String × String))
  | [] => .ok []
  | t :: ts =>
    match parseField t with
    | .error e => .error e
    | .ok none => parseFields ts
    | .ok (some kv) =>
      match parseFields ts with
      | .error e => .error e
      | .ok rest => .ok (kv :: rest)

/-- Modelled from the spec: `parseJSONRPCParams` is called by `ProbeJSONRPC`
(jsonrpc.go lines 283, 334) but its definition is not among the provided
sources.  Spec section 4.1: it parses the special
`\x7bk:v,...\x7d,literal` eth_call argument syntax — a brace-delimited object
becomes a mapping of field name to value with empty values omitted, any
remaining comma-separated literal arguments are appended as-is, and it fails
with a ParseError if braces are unbalanced or a key has no matching
structure.  A plain comma-separated argument string (no leading brace) is a
list of literals, and an empty argument string denotes a call with no
positional parameters (the repository test probes `eth_blockNumber` with
`arg=""` and expects success). -/
def parseJSONRPCParams (s : String) : Except String (List JParam) :=
  if s = "" then .ok []
  else
    match s.data with
    | '\x7b' :: rest =>
      match splitAtFirst '\x7d' rest with
      | none => .error "unbalanced braces in call object"
      | some (inside, after) =>
        match parseFields (charsSplit ',' inside []) with
        | .error e => .error e
        | .ok fields =>
          match after with
          | [] => .ok [JParam.pobj fields]
          | ',' :: litChars =>
            .ok (JParam.pobj fields ::
              (charsSplit ',' litChars []).map (fun l => JParam.plit (String.mk l)))
          | _ => .error "unexpected characters after call object"
    | l => .ok ((charsSplit ',' l []).map (fun cs2 => JParam.plit (String.mk cs2)))

/-- Did a fallible computation succeed (Go `err == nil`)? -/
def isOkE {ε α : Type} : Except ε α → Bool
  | .ok _ => true
  | .error _ => false

/-! ## Result extraction (jmespath fragment and scalar fallback) -/

/-- Is `s` a JMESPath unquoted identifier (`[A-Za-z_][A-Za-z0-9_]*`)? -/
def isIdentName (s : String) : Bool :=
  match s.data with
  | [] => false
  | c :: rest => (c.isAlpha || c = '_') && rest.all (fun d => d.isAlpha || d.isDigit || d = '_')

/-- `jmespath.Search` for the fragment exercised by this repository: a bare
identifier expression evaluates, without error, to the named field of a
decoded object and to nil (`none`) when the field is absent or the value is
not an object — go-jmespath reports errors only for expressions it cannot
compile, never for a lookup that finds nothing.  Expressions outside the
identifier fragment are conservatively mapped to a compile error; no theorem
below instantiates one. -/
def jmespathSearch (expr : String) (j : Json) : Except String (Option Json) :=
  if isIdentName expr then
    match j with
    | .jobj fields => .ok (lookupField fields expr)
    | _ => .ok none
  else .error "jmespath: expression outside the modelled identifier fragment"

/-- Go `fmt.Sprintf with the v verb` applied to a jmespath search result (a
decoded `interface` value): nil and JSON null print as `<nil>`, strings print
unquoted, booleans as `true`/`false`, numbers in their shortest decimal form
(every number reaching a theorem below is a small integer).  The rendering of
composite values (Go maps/slices) is not modelled; no theorem depends on it. -/
def formatValue : Option Json → String
  | none => "<nil>"
  | some .jnull => "<nil>"
  | some (.jstr s) => s
  | some (.jbool b) => if b then "true" else "false"
  | some (.jnum n) => toString n
  | some (.jarr _) => "composite rendering not modelled"
  | some (.jobj _) => "composite rendering not modelled"

/-- The per-call result string `r` (jsonrpc.go lines 296-315 and 354-374):
with a non-whitespace extraction expression, unmarshal the raw result and
apply `jmespath.Search`, formatting the outcome with the v verb; with an
empty or whitespace expression, `json.Unmarshal` the raw result into a Go
string, which succeeds exactly for a JSON string (unquoting it) and for JSON
null (a no-op that leaves the zero-value empty string), and fails the probe
for every other JSON value. -/
def computeR (path : String) (raw : Json) : Except String String :=
  if goTrim path ≠ "" then
    match jmespathSearch path raw with
    | .error e => .error e
    | .ok sr => .ok (formatValue sr)
  else
    match raw with
    | .jstr s => .ok s
    | .jnull => .ok ""
    | _ => .error "json: cannot unmarshal value into Go value of type string"

/-! ## ProbeJSONRPC (jsonrpc.go lines 242-388, the current revision) -/

/-- The label tuple of the `probe_jsonrpc` gauge vector:
(rpc, method, params, tag). -/
abbrev Labels := String × String × String × String

/-- One call descriptor: the i-th entry of the method/arg/decimal/tag/
resultJMESPath columns. -/
structure Desc where
  method : String
  arg : String
  dec : String
  tag : String
  path : String
deriving DecidableEq

/-- Pair the five parameter columns index-wise into call descriptors. -/
def zip5 : List String → List String → List String → List String → List String → List Desc
  | m :: ms, a :: args2, d :: ds, t :: ts, p :: ps =>
    ⟨m, a, d, t, p⟩ :: zip5 ms args2 ds ts ps
  | _, _, _, _, _ => []

/-- The parameter map of a probe: the values of each recognized key of the
multi-valued `url.Values` (an absent key is the empty list; `params.Get`
returns the first value or the empty string). -/
structure Params where
  module : List String
  methods : List String
  args : List String
  decimals : List String
  tags : List String
  resultJMESPath : List String
  disableBatch : List String

/-- Outcome of a probe invocation: a returned boolean, or a Go panic. -/
inductive ProbeRes where
  | ret (b : Bool)
  | panicked (msg : String)
deriving DecidableEq

/-- The observable effects of one `ProbeJSONRPC` invocation: its outcome, the
gauge vectors registered in the caller-supplied registry, the gauge Set
operations performed (label tuple and value, in order), and the
(method, positional-params) calls handed to the RPC client. -/
structure ProbeOut where
  res : ProbeRes
  registered : List String
  gauges : List (Labels × FVal)
  calls : List (String × List JParam)
deriving DecidableEq

/-- Mutable probe state while walking the descriptors: registered vectors,
gauge Sets so far, wire calls so far. -/
structure Acc where
  reg : List String
  gs : List (Labels × FVal)
  cs : List (String × List JParam)

/-- Outcome of the shared per-descriptor result pipeline. -/
inductive StepOut where
  | gOK (g : Labels × FVal)
  | gFail
  | gPanic (msg : String)

/-- The result pipeline one descriptor's raw result goes through, identical
in the two execution modes (jsonrpc.go lines 296-327 and 353-382): compute
`r` via `computeR`, feed it to `resultToFloat64WithDecimals` with the
descriptor's parsed decimal count, and on success produce the gauge Set for
the label tuple (target, method, trimmed raw argument, tag). -/
def processElem (target : String) (d : Desc) (raw : Json) : StepOut :=
  match computeR d.path raw with
  | .error _ => .gFail
  | .ok r =>
    match resultToFloat64WithDecimals r (parseInt64Clamped d.dec) with
    | .error m => .gPanic m
    | .ok v => .gOK ((target, d.method, goTrim d.arg, d.tag), v)

/-- Disabled-batching execution (jsonrpc.go lines 280-328): for each
descriptor in order, parse its arguments, issue one RPC call, run the result
pipeline and Set the gauge; any failure aborts the probe, keeping the effects
already performed. -/
def runNoBatch (ep : String → List JParam → Except String Json) (target : String) :
    List Desc → Acc → ProbeOut
  | [], acc => ⟨.ret true, acc.reg, acc.gs, acc.cs⟩
  | d :: rest, acc =>
    match parseJSONRPCParams d.arg with
    | .error _ => ⟨.ret false, acc.reg, acc.gs, acc.cs⟩
    | .ok ps =>
      match ep d.method ps with
      | .error _ => ⟨.ret false, acc.reg, acc.gs, acc.cs ++ [(d.method, ps)]⟩
      | .ok raw =>
        match processElem target d raw with
        | .gFail => ⟨.ret false, acc.reg, acc.gs, acc.cs ++ [(d.method, ps)]⟩
        | .gPanic m => ⟨.panicked m, acc.reg, acc.gs, acc.cs ++ [(d.method, ps)]⟩
        | .gOK g =>
          runNoBatch ep target rest ⟨acc.reg, acc.gs ++ [g], acc.cs ++ [(d.method, ps)]⟩

/-- Batch assembly (jsonrpc.go lines 331-345): parse every descriptor's
arguments before anything is sent; the first parse failure aborts the probe
with no wire call issued. -/
def buildBatch : List Desc → Except String (List (Desc × List JParam))
  | [] => .ok []
  | d :: rest =>
    match parseJSONRPCParams d.arg with
    | .error e => .error e
    | .ok ps =>
      match buildBatch rest with
      | .error e => .error e
      | .ok l => .ok ((d, ps) :: l)

/-- Walking the index-aligned batch responses (jsonrpc.go lines 352-383).
The code never inspects a batch element's `Error` field: an element that
failed keeps its zero-value empty `RawMessage`, whose `json.Unmarshal`
fails in either extraction branch and aborts the probe, so an element error
(`.error`) behaves as an unconditional abort here. -/
def runBatchElems (target : String) :
    List (Desc × Except String Json) → Acc → ProbeOut
  | [], acc => ⟨.ret true, acc.reg, acc.gs, acc.cs⟩
  | (_, .error _) :: _, acc => ⟨.ret false, acc.reg, acc.gs, acc.cs⟩
  | (d, .ok raw) :: rest, acc =>
    match processElem target d raw with
    | .gFail => ⟨.ret false, acc.reg, acc.gs, acc.cs⟩
    | .gPanic m => ⟨.panicked m, acc.reg, acc.gs, acc.cs⟩
    | .gOK g => runBatchElems target rest ⟨acc.reg, acc.gs ++ [g], acc.cs⟩

/-- `ProbeJSONRPC` (jsonrpc.go lines 242-388).  `dialOk` models
`ethclient.Dial`, which performs no network I/O for an http(s) URL and fails
only on a malformed target.  `ep` models the JSON-RPC endpoint the probe
talks to, answering each (method, positional-params) call independently with
a decoded raw result or an error, exactly as the repository's mock
`httptest` server does; a batch is answered element-wise by the same
endpoint.  The guard structure follows the source: dial, the five-column
presence and equal-length preconditions, the `module` switch, gauge-vector
registration, then one of the two execution modes selected by
`disableBatch`. -/
def ProbeJSONRPC (dialOk : Bool) (ep : String → List JParam → Except String Json)
    (target0 : String) (p : Params) : ProbeOut :=
  if dialOk = false then ⟨.ret false, [], [], []⟩
  else if p.methods.length = 0 ∨ p.args.length = 0 ∨ p.decimals.length = 0 ∨
      p.tags.length = 0 ∨ p.resultJMESPath.length = 0 then ⟨.ret false, [], [], []⟩
  else if ¬(p.methods.length = p.args.length ∧ p.methods.length = p.decimals.length ∧
      p.methods.length = p.tags.length ∧ p.methods.length = p.resultJMESPath.length) then
    ⟨.ret false, [], [], []⟩
  else if p.module.headD "" = "jsonrpc" then
    if p.disableBatch.headD "" = "true" then
      runNoBatch ep (normalizeTarget target0)
        (zip5 p.methods p.args p.decimals p.tags p.resultJMESPath) ⟨["probe_jsonrpc"], [], []⟩
    else
      match buildBatch (zip5 p.methods p.args p.decimals p.tags p.resultJMESPath) with
      | .error _ => ⟨.ret false, ["probe_jsonrpc"], [], []⟩
      | .ok elems =>
        runBatchElems (normalizeTarget target0) (elems.map (fun e => (e.1, ep e.1.method e.2)))
          ⟨["probe_jsonrpc"], [], elems.map (fun e => (e.1.method, e.2))⟩
  else ⟨.ret true, [], [], []⟩

/-- The five-column precondition of jsonrpc.go lines 258-266: the `method`,
`arg`, `decimal`, `tag` and `resultJMESPath` columns are all present
(non-empty) with identical length. -/
def validColumns (p : Params) : Prop :=
  0 < p.methods.length ∧ p.methods.length = p.args.length ∧
  p.methods.length = p.decimals.length ∧ p.methods.length = p.tags.length ∧
  p.methods.length = p.resultJMESPath.length

instance (p : Params) : Decidable (validColumns p) := by
  unfold validColumns
  exact inferInstance

end Prober

section sanityChecks

example : Prober.stringsToSlice "42,true,hello,0xabc" =
    [.int 42, .bool true, .str "hello", .str "0xabc"] := by decide

example : Prober.stringsToSlice " 10 , true , hello " =
    [.int 10, .bool true, .str "hello"] := by decide

example : Prober.stringsToSlice "" = [] := by decide

example : Prober.stringsToSlice " " = [.str ""] := by decide

example : (Prober.resultToFloat64WithDecimals "0x3635C9ADC5DEA00000" 18).map Prober.FVal.val
    = .ok (some 1000) := by
  have h : Prober.resultToFloat64WithDecimals "0x3635C9ADC5DEA00000" 18
      = .ok (.fin 1000000000000000000000 18) := by decide
  rw [h]
  simp only [Except.map, Prober.FVal.val, Prober.pow10Q]
  push_cast [Int.toNat_ofNat]
  norm_num

example : (Prober.resultToFloat64WithDecimals "1000000000" 6).map Prober.FVal.val
    = .ok (some 1000) := by
  have h : Prober.resultToFloat64WithDecimals "1000000000" 6 = .ok (.fin 1000000000 6) := by
    decide
  rw [h]
  simp only [Except.map, Prober.FVal.val, Prober.pow10Q]
  push_cast [Int.toNat_ofNat]
  norm_num

example : (Prober.resultToFloat64WithDecimals "0x0" 18).map Prober.FVal.val
    = .ok (some 0) := by
  have h : Prober.resultToFloat64WithDecimals "0x0" 18 = .ok (.fin 0 18) := by decide
  rw [h]
  simp only [Except.map, Prober.FVal.val]
  norm_num

example : Prober.resultToFloat64WithDecimals "0x0" (-324) =
    .error "ErrNaN: big.Float Quo of zero by zero" := by decide

example :
    Prober.ProbeJSONRPC true (fun _ _ => .ok (.jstr "0x1234")) "https://rpc.example/eth"
      ⟨["jsonrpc"], ["eth_blockNumber"], [""], ["0"], ["BlockNumber"], [""], []⟩ =
    ⟨.ret true, ["probe_jsonrpc"],
      [(("https://rpc.example/eth", "eth_blockNumber", "", "BlockNumber"), .fin 4660 0)],
      [("eth_blockNumber", [])]⟩ := by decide

example :
    Prober.ProbeJSONRPC true (fun _ _ => .ok (.jstr "0x1234")) "rpc.example"
      ⟨["jsonrpc"], ["eth_blockNumber"], [""], ["0"], ["BlockNumber"], [""], ["true"]⟩ =
    ⟨.ret true, ["probe_jsonrpc"],
      [(("http://rpc.example", "eth_blockNumber", "", "BlockNumber"), .fin 4660 0)],
      [("eth_blockNumber", [])]⟩ := by decide

example :
    Prober.parseJSONRPCParams "\x7bfrom:,to:0x3c3a81e81dc49a522a592e7622a7e711c06bf354,data:0x8da5cb5b\x7d,latest" =
    .ok [.pobj [("to", "0x3c3a81e81dc49a522a592e7622a7e711c06bf354"), ("data", "0x8da5cb5b")],
         .plit "latest"] := by decide

example : Prober.parseJSONRPCParams "\x7bx" =
    .error "unbalanced braces in call object" := by decide

example :
    Prober.ProbeJSONRPC true (fun _ _ => .ok (.jstr "0x1234")) "http://x"
      ⟨[], ["eth_blockNumber"], [""], ["0"], ["BlockNumber"], [""], []⟩ =
    ⟨.ret true, [], [], []⟩ := by decide

example :
    Prober.ProbeJSONRPC true (fun _ _ => .ok (.jstr "0x1234")) "http://x"
      ⟨["jsonrpc"], [], [], [], [], [], []⟩ =
    ⟨.ret false, [], [], []⟩ := by decide

end sanityChecks

namespace Prober

/-- C3: the decimal normalizer `resultToFloat64WithDecimals` parses its input
as base 16 exactly when it carries a `0x` prefix (scanning the remainder) and
as base 10 otherwise, and satisfies
`toScaledFloat("0x3635C9ADC5DEA00000", 18) = 1000.0`,
`toScaledFloat("1000000000", 6) = 1000.0` and
`toScaledFloat("0x0", 18) = 0.0`. -/
theorem c3_decimal_normalizer :
    (∀ s : String, ∀ d : Int,
      resultToFloat64WithDecimals s d =
        scaleInt (if hasHexMark s then bigScanChars hexDigitVal 16 (s.data.drop 2)
                  else bigScanChars decDigitVal 10 s.data) d)
    ∧ (resultToFloat64WithDecimals "0x3635C9ADC5DEA00000" 18).map FVal.val = .ok (some 1000)
    ∧ (resultToFloat64WithDecimals "1000000000" 6).map FVal.val = .ok (some 1000)
    ∧ (resultToFloat64WithDecimals "0x0" 18).map FVal.val = .ok (some 0) := by
  refine ⟨fun s d => rfl, ?_, ?_, ?_⟩
  · have h : resultToFloat64WithDecimals "0x3635C9ADC5DEA00000" 18
        = .ok (.fin 1000000000000000000000 18) := by decide
    rw [h]
    simp only [Except.map, FVal.val, pow10Q]
    push_cast [Int.toNat_ofNat]
    norm_num
  · have h : resultToFloat64WithDecimals "1000000000" 6 = .ok (.fin 1000000000 6) := by decide
    rw [h]
    simp only [Except.map, FVal.val, pow10Q]
    push_cast [Int.toNat_ofNat]
    norm_num
  · have h : resultToFloat64WithDecimals "0x0" 18 = .ok (.fin 0 18) := by decide
    rw [h]
    simp only [Except.map, FVal.val, pow10Q]
    norm_num

/-- C5 counterexample: the trimmed part `T` neither parses as a base-10
signed integer nor is one of the boolean literals `true`/`false`, so by the
claimed classification it would have to be kept as the string `T`; the code
instead classifies it as the boolean `true`, because Go `strconv.ParseBool`
also accepts the abbreviations 1, t, T, TRUE, True, 0, f, F, FALSE, False. -/
theorem c5_counterexample :
    stringsToSlice "T" = [GoVal.bool true] ∧ parseInt64 "T" = none ∧
    "T" ≠ "true" ∧ "T" ≠ "false" := by decide

/-- C5 (amended): `stringsToSlice` splits on commas, trims each part, and
classifies each part in order — base-10 signed int64 first, then anything
Go `strconv.ParseBool` accepts (the literals `true`/`false` together with
1/t/T/TRUE/True/0/f/F/FALSE/False), and otherwise keeps the trimmed part as a
string; `"42,true,hello,0xabc"` maps to `[42, true, "hello", "0xabc"]` with
`"0xabc"` remaining a string. -/
theorem c5_strings_to_slice :
    (∀ s : String, s ≠ "" →
      stringsToSlice s = (goSplitComma s).map (fun part =>
        match parseInt64 (goTrim part) with
        | some n => GoVal.int n
        | none =>
          match parseBool (goTrim part) with
          | some b => GoVal.bool b
          | none => GoVal.str (goTrim part)))
    ∧ stringsToSlice "42,true,hello,0xabc" =
        [GoVal.int 42, GoVal.bool true, GoVal.str "hello", GoVal.str "0xabc"] := by
  constructor
  · intro s hs
    unfold stringsToSlice
    rw [if_neg hs]
  · decide

/-- C5 witness: the classification theorem applied at a concrete input. -/
theorem c5_strings_to_slice_witness :
    stringsToSlice " 10 , true , hello " =
      [GoVal.int 10, GoVal.bool true, GoVal.str "hello"] := by
  rw [c5_strings_to_slice.1 " 10 , true , hello " (by decide)]
  decide

/-- C8: `stringsToSlice` maps the empty string to the empty sequence, while
an input holding a single part that trims to the empty string (for example a
lone space) yields the one-element sequence containing the empty string, so
"no arguments" and "one empty-string argument" stay distinguishable. -/
theorem c8_empty_versus_single_empty :
    stringsToSlice "" = [] ∧ stringsToSlice " " = [GoVal.str ""] := by decide

/-- C2: whenever the five columns `method`, `arg`, `decimal`, `tag`,
`resultJMESPath` are not all present with identical non-zero length
(the empty parameter map included), `ProbeJSONRPC` returns false having
registered no gauge vector, Set no gauge value and issued no RPC call. -/
theorem c2_precondition_failure (dialOk : Bool)
    (ep : String → List JParam → Except String Json) (target : String) (p : Params)
    (h : ¬ validColumns p) :
    ProbeJSONRPC dialOk ep target p = ⟨.ret false, [], [], []⟩ := by
  unfold ProbeJSONRPC
  by_cases hd : dialOk = false
  · rw [if_pos hd]
  · rw [if_neg hd]
    by_cases h1 : p.methods.length = 0 ∨ p.args.length = 0 ∨ p.decimals.length = 0 ∨
        p.tags.length = 0 ∨ p.resultJMESPath.length = 0
    · rw [if_pos h1]
    · rw [if_neg h1]
      have h2 : ¬(p.methods.length = p.args.length ∧ p.methods.length = p.decimals.length ∧
          p.methods.length = p.tags.length ∧ p.methods.length = p.resultJMESPath.length) := by
        intro hc
        push_neg at h1
        exact h ⟨Nat.pos_of_ne_zero h1.1, hc.1, hc.2.1, hc.2.2.1, hc.2.2.2⟩
      rw [if_pos h2]

/-- C2 witness: the precondition theorem applied to the empty parameter map. -/
theorem c2_precondition_failure_witness :
    ¬ validColumns ⟨[], [], [], [], [], [], []⟩ ∧
    ProbeJSONRPC true (fun _ _ => .ok (.jstr "0x1234")) "http://x"
      ⟨[], [], [], [], [], [], []⟩ = ⟨.ret false, [], [], []⟩ :=
  ⟨by decide,
   c2_precondition_failure true (fun _ _ => .ok (.jstr "0x1234")) "http://x"
     ⟨[], [], [], [], [], [], []⟩ (by decide)⟩

/-- C10: with the five columns present at identical non-zero length but a
`module` value other than `jsonrpc` (an absent `module` included, since
`params.Get` then yields the empty string), `ProbeJSONRPC` returns true while
registering no gauge vector, Setting no gauge value and issuing no RPC call. -/
theorem c10_unknown_module (ep : String → List JParam → Except String Json)
    (target : String) (p : Params) (hcols : validColumns p)
    (hmod : p.module.headD "" ≠ "jsonrpc") :
    ProbeJSONRPC true ep target p = ⟨.ret true, [], [], []⟩ := by
  obtain ⟨hpos, ha, hb, hc, hd⟩ := hcols
  unfold ProbeJSONRPC
  have g0 : ¬(true = false) := by decide
  have g1 : ¬(p.methods.length = 0 ∨ p.args.length = 0 ∨ p.decimals.length = 0 ∨
      p.tags.length = 0 ∨ p.resultJMESPath.length = 0) := by omega
  have g2 : p.methods.length = p.args.length ∧ p.methods.length = p.decimals.length ∧
      p.methods.length = p.tags.length ∧ p.methods.length = p.resultJMESPath.length :=
    ⟨ha, hb, hc, hd⟩
  rw [if_neg g0, if_neg g1, if_neg (not_not_intro g2), if_neg hmod]

/-- C10 witness: the theorem applied to a column-complete map whose module
is `ethrpc`. -/
theorem c10_unknown_module_witness :
    ProbeJSONRPC true (fun _ _ => .ok (.jstr "0x1234")) "http://x"
      ⟨["ethrpc"], ["eth_blockNumber"], [""], ["0"], ["t"], [""], []⟩ =
    ⟨.ret true, [], [], []⟩ :=
  c10_unknown_module (fun _ _ => .ok (.jstr "0x1234")) "http://x"
    ⟨["ethrpc"], ["eth_blockNumber"], [""], ["0"], ["t"], [""], []⟩
    (by constructor <;> decide) (by decide)

/-- C9: the probe is not panic-free.  With the reachable parameter map
`module=jsonrpc, disableBatch=true, method=eth_blockNumber, arg="",
decimal="-324", tag=t, resultJMESPath=""` and an endpoint answering the JSON
string `0x0`, the parsed result integer is 0 while `math.Pow10(-324)`
underflows to 0, so `resultToFloat64WithDecimals` reaches `big.Float.Quo`
with two zero operands and panics with `ErrNaN` instead of returning a
boolean. -/
theorem c9_panic_reachable :
    resultToFloat64WithDecimals "0x0" (-324) =
      .error "ErrNaN: big.Float Quo of zero by zero" ∧
    (ProbeJSONRPC true (fun _ _ => .ok (.jstr "0x0")) "http://rpc.test"
        ⟨["jsonrpc"], ["eth_blockNumber"], [""], ["-324"], ["t"], [""], ["true"]⟩).res =
      .panicked "ErrNaN: big.Float Quo of zero by zero" := by decide

/-- C6 counterexample: a descriptor whose extraction expression `missing`
names a field absent from the decoded object result does not fail the probe;
`jmespath.Search` returns nil without error, the nil formats as `<nil>`,
the big-integer scan of `<nil>` degrades to 0, and the probe Sets the gauge
to 0 and returns true — refuting the claim that it returns false. -/
theorem c6_counterexample :
    ProbeJSONRPC true (fun _ _ => .ok (.jobj [("balance", .jstr "0x10")])) "http://x"
      ⟨["jsonrpc"], ["getInfo"], [""], ["0"], ["t"], ["missing"], ["true"]⟩ =
    ⟨.ret true, ["probe_jsonrpc"], [(("http://x", "getInfo", "", "t"), .fin 0 0)],
      [("getInfo", [])]⟩ := by decide

/-- C6 (amended): for a descriptor whose extraction expression is a plain
identifier naming a field absent from the decoded JSON object result (and a
decimal column parsing into the non-degenerate range where `math.Pow10` is
finite), `ProbeJSONRPC` does not fail: it returns true and Sets the
descriptor's gauge to 0, the nil search result having been formatted as
`<nil>` and scanned as the big integer 0. -/
theorem c6_absent_field (target m tag decStr path : String)
    (fields : List (String × Json))
    (hpath : isIdentName path = true) (htrim : goTrim path ≠ "")
    (habsent : (lookupField fields path).isNone = true)
    (hdec1 : -323 ≤ parseInt64Clamped decStr) (hdec2 : parseInt64Clamped decStr ≤ 308) :
    ProbeJSONRPC true (fun _ _ => .ok (.jobj fields)) target
      ⟨["jsonrpc"], [m], [""], [decStr], [tag], [path], ["true"]⟩ =
    ⟨.ret true, ["probe_jsonrpc"],
      [((normalizeTarget target, m, "", tag), .fin 0 (parseInt64Clamped decStr))],
      [(m, [])]⟩ := by
  have hsearch : jmespathSearch path (Json.jobj fields) = .ok none := by
    unfold jmespathSearch
    rw [if_pos hpath]
    show Except.ok (lookupField fields path) = Except.ok none
    rw [Option.isNone_iff_eq_none.mp habsent]
  have hr : computeR path (.jobj fields) = .ok "<nil>" := by
    unfold computeR
    rw [if_pos htrim, hsearch]
    rfl
  have hval : resultToFloat64WithDecimals "<nil>" (parseInt64Clamped decStr)
      = .ok (.fin 0 (parseInt64Clamped decStr)) := by
    unfold resultToFloat64WithDecimals
    have h0 : resultBigInt "<nil>" = 0 := by decide
    rw [h0]
    unfold scaleInt
    rw [if_neg (by omega), if_neg (by omega)]
  have hpe : processElem (normalizeTarget target) ⟨m, "", decStr, tag, path⟩ (.jobj fields)
      = .gOK ((normalizeTarget target, m, "", tag), .fin 0 (parseInt64Clamped decStr)) := by
    simp only [processElem, hr, hval]
    rfl
  have hstep : ProbeJSONRPC true (fun _ _ => .ok (.jobj fields)) target
      ⟨["jsonrpc"], [m], [""], [decStr], [tag], [path], ["true"]⟩
      = runNoBatch (fun _ _ => .ok (.jobj fields)) (normalizeTarget target)
          [⟨m, "", decStr, tag, path⟩] ⟨["probe_jsonrpc"], [], []⟩ := rfl
  rw [hstep]
  simp only [runNoBatch, show parseJSONRPCParams "" = .ok [] from rfl, hpe]
  rfl

/-- C6 witness: the amended theorem applied at a concrete absent field. -/
theorem c6_absent_field_witness :
    ProbeJSONRPC true (fun _ _ => .ok (.jobj [("balance", .jstr "0x10")])) "http://x"
      ⟨["jsonrpc"], ["m"], [""], ["7"], ["t"], ["missing"], ["true"]⟩ =
    ⟨.ret true, ["probe_jsonrpc"], [(("http://x", "m", "", "t"), .fin 0 7)], [("m", [])]⟩ :=
  c6_absent_field "http://x" "m" "t" "7" "missing" [("balance", .jstr "0x10")]
    (by decide) (by decide) (by decide) (by decide) (by decide)

/-- C7 counterexample: with an empty extraction expression and a raw JSON
result that is not a quoted string (the number 5), the probe does not
serialize the value back to a compact JSON string — `json.Unmarshal` into a
Go string fails and the probe returns false with no gauge Set. -/
theorem c7_counterexample :
    ProbeJSONRPC true (fun _ _ => .ok (.jnum 5)) "http://x"
      ⟨["jsonrpc"], ["web3_clientVersion"], [""], ["0"], ["t"], [""], ["true"]⟩ =
    ⟨.ret false, ["probe_jsonrpc"], [], [("web3_clientVersion", [])]⟩ := by decide

/-- C7 (amended): with an empty-or-whitespace extraction expression the raw
JSON-RPC result is unmarshalled into a single Go string: a quoted JSON
string is unquoted to its content, which is passed to the decimal
normalizer and Set as the gauge; any raw result other than a JSON string
(or JSON null, for which unmarshalling is a no-op) makes the probe fail
with a JSON decode error instead of being re-serialized. -/
theorem c7_scalar_fallback (target m tag decStr path s2 : String) (v : FVal)
    (hpath : goTrim path = "")
    (hval : resultToFloat64WithDecimals s2 (parseInt64Clamped decStr) = .ok v) :
    (ProbeJSONRPC true (fun _ _ => .ok (.jstr s2)) target
        ⟨["jsonrpc"], [m], [""], [decStr], [tag], [path], ["true"]⟩ =
      ⟨.ret true, ["probe_jsonrpc"], [((normalizeTarget target, m, "", tag), v)],
        [(m, [])]⟩)
    ∧ ∀ j : Json, j.isStr = false → j.isNull = false →
        ProbeJSONRPC true (fun _ _ => .ok j) target
            ⟨["jsonrpc"], [m], [""], [decStr], [tag], [path], ["true"]⟩ =
          ⟨.ret false, ["probe_jsonrpc"], [], [(m, [])]⟩ := by
  have htr : ¬(goTrim path ≠ "") := not_not_intro hpath
  constructor
  · have hr : computeR path (.jstr s2) = .ok s2 := by
      unfold computeR
      rw [if_neg htr]
    have hpe : processElem (normalizeTarget target) ⟨m, "", decStr, tag, path⟩ (.jstr s2)
        = .gOK ((normalizeTarget target, m, "", tag), v) := by
      simp only [processElem, hr, hval]
      rfl
    have hstep : ProbeJSONRPC true (fun _ _ => .ok (.jstr s2)) target
        ⟨["jsonrpc"], [m], [""], [decStr], [tag], [path], ["true"]⟩
        = runNoBatch (fun _ _ => .ok (.jstr s2)) (normalizeTarget target)
            [⟨m, "", decStr, tag, path⟩] ⟨["probe_jsonrpc"], [], []⟩ := rfl
    rw [hstep]
    simp only [runNoBatch, show parseJSONRPCParams "" = .ok [] from rfl, hpe]
    rfl
  · intro j hjs hjn
    have hr : computeR path j =
        .error "json: cannot unmarshal value into Go value of type string" := by
      unfold computeR
      rw [if_neg htr]
      cases j with
      | jstr s3 => simp [Json.isStr] at hjs
      | jnull => simp [Json.isNull] at hjn
      | jbool b => rfl
      | jnum n => rfl
      | jarr elems => rfl
      | jobj fields => rfl
    have hpe : processElem (normalizeTarget target) ⟨m, "", decStr, tag, path⟩ j
        = .gFail := by
      simp only [processElem, hr]
    have hstep : ProbeJSONRPC true (fun _ _ => .ok j) target
        ⟨["jsonrpc"], [m], [""], [decStr], [tag], [path], ["true"]⟩
        = runNoBatch (fun _ _ => .ok j) (normalizeTarget target)
            [⟨m, "", decStr, tag, path⟩] ⟨["probe_jsonrpc"], [], []⟩ := rfl
    rw [hstep]
    simp only [runNoBatch, show parseJSONRPCParams "" = .ok [] from rfl, hpe]
    rfl

/-- C7 witness: the scalar-fallback theorem applied to the canned result
`"0x1234"` of the repository's mock server. -/
theorem c7_scalar_fallback_witness :
    ProbeJSONRPC true (fun _ _ => .ok (.jstr "0x1234")) "http://x"
      ⟨["jsonrpc"], ["m"], [""], ["0"], ["t"], [""], ["true"]⟩ =
    ⟨.ret true, ["probe_jsonrpc"], [(("http://x", "m", "", "t"), .fin 4660 0)],
      [("m", [])]⟩ :=
  (c7_scalar_fallback "http://x" "m" "t" "0" "" "0x1234" (.fin 4660 0)
    (by decide) (by decide)).1

/-- Every descriptor produced by `zip5` takes its `arg` field from the `arg`
column. -/
theorem zip5_arg_mem (ms argl decl tagl pathl : List String) (d : Desc)
    (hd : d ∈ zip5 ms argl decl tagl pathl) : d.arg ∈ argl := by
  induction ms generalizing argl decl tagl pathl with
  | nil => simp [zip5] at hd
  | cons m ms2 ih =>
    cases argl with
    | nil => simp [zip5] at hd
    | cons a args2 =>
      cases decl with
      | nil => simp [zip5] at hd
      | cons d2 ds =>
        cases tagl with
        | nil => simp [zip5] at hd
        | cons t ts =>
          cases pathl with
          | nil => simp [zip5] at hd
          | cons p2 ps2 =>
            simp only [zip5, List.mem_cons] at hd
            cases hd with
            | inl h => subst h; exact List.mem_cons_self _ _
            | inr h => exact List.mem_cons_of_mem _ (ih args2 ds ts ps2 h)

/-- When every descriptor's argument string parses, batch assembly succeeds
and its elements carry the descriptors in order. -/
theorem buildBatch_exists (descs : List Desc)
    (h : ∀ d, d ∈ descs → isOkE (parseJSONRPCParams d.arg) = true) :
    ∃ elems, buildBatch descs = .ok elems ∧ elems.map Prod.fst = descs := by
  induction descs with
  | nil => exact ⟨[], rfl, rfl⟩
  | cons d rest ih =>
    obtain ⟨ps, hps⟩ : ∃ ps, parseJSONRPCParams d.arg = .ok ps := by
      have hx := h d (List.mem_cons_self d rest)
      cases hy : parseJSONRPCParams d.arg with
      | ok ps => exact ⟨ps, rfl⟩
      | error e => rw [hy] at hx; simp [isOkE] at hx
    obtain ⟨elems, he, hf⟩ := ih (fun x hx => h x (List.mem_cons_of_mem d hx))
    refine ⟨(d, ps) :: elems, ?_, ?_⟩
    · simp only [buildBatch, hps, he]
    · simp [hf]

/-- Against an endpoint answering every call with the same canned result, the
disabled-batching walk and the batch-response walk agree on outcome,
registrations and gauge Sets whenever every descriptor's argument string
parses, for any pair of starting states agreeing on registrations and
gauges. -/
theorem run_modes_eq (canned : Json) (target : String) :
    ∀ (descs : List Desc) (a b : Acc),
      (∀ d, d ∈ descs → isOkE (parseJSONRPCParams d.arg) = true) →
      a.reg = b.reg → a.gs = b.gs →
      ((runNoBatch (fun _ _ => Except.ok canned) target descs a).res
        = (runBatchElems target (descs.map (fun d => (d, Except.ok canned))) b).res) ∧
      ((runNoBatch (fun _ _ => Except.ok canned) target descs a).registered
        = (runBatchElems target (descs.map (fun d => (d, Except.ok canned))) b).registered) ∧
      ((runNoBatch (fun _ _ => Except.ok canned) target descs a).gauges
        = (runBatchElems target (descs.map (fun d => (d, Except.ok canned))) b).gauges) := by
  intro descs
  induction descs with
  | nil =>
    intro a b h hr hg
    simp [runNoBatch, runBatchElems, hr, hg]
  | cons d rest ih =>
    intro a b h hr hg
    obtain ⟨ps, hps⟩ : ∃ ps, parseJSONRPCParams d.arg = .ok ps := by
      have hx := h d (List.mem_cons_self d rest)
      cases hy : parseJSONRPCParams d.arg with
      | ok ps => exact ⟨ps, rfl⟩
      | error e => rw [hy] at hx; simp [isOkE] at hx
    simp only [List.map_cons, runNoBatch, runBatchElems, hps]
    cases hpe : processElem target d canned with
    | gFail => simp [hr, hg]
    | gPanic m2 => simp [hr, hg]
    | gOK g =>
      exact ih ⟨a.reg, a.gs ++ [g], a.cs ++ [(d.method, ps)]⟩ ⟨b.reg, b.gs ++ [g], b.cs⟩
        (fun x hx => h x (List.mem_cons_of_mem d hx)) hr (by rw [hg])

/-- C1 counterexample: two descriptors against a mock endpoint answering the
same canned result for every call, where the second argument string fails to
parse (`\x7bx` has an unbalanced brace).  The disabled-batching run Sets the
first descriptor's gauge before failing, while the batching run parses every
argument before issuing anything and registers no gauge value at all — the
two modes do not register the same gauge set. -/
theorem c1_counterexample :
    (ProbeJSONRPC true (fun _ _ => .ok (.jstr "0x10")) "http://x"
        ⟨["jsonrpc"], ["m0", "m1"], ["", "\x7bx"], ["0", "0"], ["t0", "t1"], ["", ""],
          []⟩).gauges ≠
    (ProbeJSONRPC true (fun _ _ => .ok (.jstr "0x10")) "http://x"
        ⟨["jsonrpc"], ["m0", "m1"], ["", "\x7bx"], ["0", "0"], ["t0", "t1"], ["", ""],
          ["true"]⟩).gauges := by decide

/-- C1 (amended): provided every descriptor's argument string parses under
`parseJSONRPCParams`, running `ProbeJSONRPC` with batching enabled and with
batching disabled against a mock endpoint returning the same canned result
for every call registers exactly the same `probe_jsonrpc` gauge label tuples
with the same values, and returns the same outcome; when some argument fails
to parse the two modes can differ, the non-batch walk keeping gauges already
Set for earlier descriptors (see the counterexample). -/
theorem c1_batch_equivalence (canned : Json) (target : String)
    (modl ms argl decl tagl pathl : List String)
    (h : ∀ a, a ∈ argl → isOkE (parseJSONRPCParams a) = true) :
    ((ProbeJSONRPC true (fun _ _ => Except.ok canned) target
        ⟨modl, ms, argl, decl, tagl, pathl, []⟩).gauges
      = (ProbeJSONRPC true (fun _ _ => Except.ok canned) target
        ⟨modl, ms, argl, decl, tagl, pathl, ["true"]⟩).gauges)
    ∧ ((ProbeJSONRPC true (fun _ _ => Except.ok canned) target
        ⟨modl, ms, argl, decl, tagl, pathl, []⟩).res
      = (ProbeJSONRPC true (fun _ _ => Except.ok canned) target
        ⟨modl, ms, argl, decl, tagl, pathl, ["true"]⟩).res) := by
  unfold ProbeJSONRPC
  dsimp only
  by_cases h1 : ms.length = 0 ∨ argl.length = 0 ∨ decl.length = 0 ∨ tagl.length = 0 ∨
      pathl.length = 0
  · simp only [if_neg (by decide : ¬(true = false)), if_pos h1]
    trivial
  · simp only [if_neg (by decide : ¬(true = false)), if_neg h1]
    by_cases h2 : ms.length = argl.length ∧ ms.length = decl.length ∧
        ms.length = tagl.length ∧ ms.length = pathl.length
    · simp only [if_neg (not_not_intro h2)]
      by_cases hm : modl.headD "" = "jsonrpc"
      · simp only [if_pos hm, List.headD_nil, List.headD_cons,
          if_neg (by decide : ¬("" = "true")), if_true]
        have hdesc : ∀ d, d ∈ zip5 ms argl decl tagl pathl →
            isOkE (parseJSONRPCParams d.arg) = true :=
          fun d hd => h d.arg (zip5_arg_mem ms argl decl tagl pathl d hd)
        obtain ⟨elems, he, hf⟩ := buildBatch_exists (zip5 ms argl decl tagl pathl) hdesc
        simp only [he]
        have hmap : elems.map (fun e => ((e.1, Except.ok canned) : Desc × Except String Json))
            = (zip5 ms argl decl tagl pathl).map (fun d => (d, Except.ok canned)) := by
          rw [← hf, List.map_map]
          rfl
        have hq := run_modes_eq canned (normalizeTarget target)
          (zip5 ms argl decl tagl pathl) ⟨["probe_jsonrpc"], [], []⟩
          ⟨["probe_jsonrpc"], [], elems.map (fun e => (e.1.method, e.2))⟩ hdesc rfl rfl
        rw [hmap]
        exact ⟨hq.2.2.symm, hq.1.symm⟩
      · simp only [if_neg hm]
        trivial
    · simp only [if_pos h2]
      trivial

/-- C1 witness: the equivalence theorem applied to one descriptor whose
argument string is empty (and parses). -/
theorem c1_batch_equivalence_witness :
    (ProbeJSONRPC true (fun _ _ => .ok (.jstr "0x10")) "http://x"
        ⟨["jsonrpc"], ["m0"], [""], ["0"], ["t0"], [""], []⟩).gauges =
    (ProbeJSONRPC true (fun _ _ => .ok (.jstr "0x10")) "http://x"
        ⟨["jsonrpc"], ["m0"], [""], ["0"], ["t0"], [""], ["true"]⟩).gauges :=
  (c1_batch_equivalence (.jstr "0x10") "http://x" ["jsonrpc"] ["m0"] [""] ["0"] ["t0"] [""]
    (by intro a ha; rcases List.mem_singleton.mp ha with rfl; decide)).1

end Prober
